import Mathlib

/-!
Verification development for the network-interceptor core of All-Model-Chat
(`services/networkInterceptor.ts` and `utils/errorUtils.ts`).

URLs and other JavaScript strings are embedded as `List Char`.  JavaScript
string primitives (`includes`, first-occurrence `replace`, the one regex
replacement used by the source) are defined below and each definition mirrors
the ECMAScript behaviour of the corresponding primitive on the arguments the
source uses.  Replacement-pattern `$` sequences of `String.prototype.replace`
are not modelled: the source's replacement strings are literals without `$`,
except for the user-supplied proxy base, for which the model treats the
replacement as verbatim text.
-/

/-- Shorthand turning a Lean string literal into the `List Char` embedding. -/
def cs (s : String) : List Char := s.data

/-- Test whether `p` is a prefix of `s` (character-wise). -/
def startsWithL : List Char → List Char → Bool
  | [], _ => true
  | _ :: _, [] => false
  | a :: as, b :: bs => a = b && startsWithL as bs

/-- JavaScript `s.includes(pat)`: `pat` occurs as a contiguous substring of `s`.
The pattern is the first argument. -/
def occursIn (pat : List Char) : List Char → Bool
  | [] => startsWithL pat []
  | c :: rest => startsWithL pat (c :: rest) || occursIn pat rest

/-- JavaScript `s.replace(pat, rep)` with a string pattern: replace the first
occurrence of `pat` in `s` by `rep`; return `s` unchanged when `pat` does not
occur. -/
def replaceFirst (pat rep : List Char) : List Char → List Char
  | [] => if startsWithL pat [] then rep else []
  | c :: rest =>
    if startsWithL pat (c :: rest) then rep ++ List.drop pat.length (c :: rest)
    else c :: replaceFirst pat rep rest

/-- Length bound used for termination of `collapseSlashes`. -/
theorem dropWhileSlash_length_le (l : List Char) :
    (l.dropWhile (· = '/')).length ≤ l.length := by
  induction l with
  | nil => simp [List.dropWhile]
  | cons c rest ih =>
    by_cases h : c = '/'
    · simpa [List.dropWhile, h] using Nat.le_succ_of_le ih
    · simp [List.dropWhile, h]

/-- Recursion core of `collapseSlashes`.  The `fuel` argument only makes the
recursion structural (each scan step consumes at least one character, so any
fuel at least the list length is enough); it never changes the result. -/
def collapseFuel : Nat → List Char → List Char
  | fuel + 1, c :: '/' :: '/' :: rest =>
    if c = ':' then
      c :: collapseFuel fuel ('/' :: '/' :: rest)
    else
      c :: '/' :: collapseFuel fuel (rest.dropWhile (· = '/'))
  | fuel + 1, c :: rest => c :: collapseFuel fuel rest
  | _, l => l

/-- JavaScript `s.replace(/([^:]\/)\/+/g, "$1")`, the final rule of the rewrite
chain: scanning left to right, a character other than `:` followed by two or
more slashes keeps the character and one slash and drops the rest of the slash
run; scanning resumes after the consumed run. -/
def collapseSlashes (l : List Char) : List Char := collapseFuel l.length l

/-- Fixed upstream API hostname watched by the interceptor
(`TARGET_HOST` in the source). -/
def TARGET_HOST : List Char := cs "generativelanguage.googleapis.com"

/-- Canonical origin replaced by the proxy base (`targetOrigin` in the source). -/
def targetOrigin : List Char := cs "https://generativelanguage.googleapis.com"

/-- URL Rewrite Engine: the ordered heuristic chain of `patchedFetch`
(lines 134–175 of `networkInterceptor.ts`) as a pure function of the original
URL string and the configured proxy base. -/
def rewriteUrl (urlStr base : List Char) : List Char :=
  let u1 := replaceFirst targetOrigin base urlStr
  let u2 :=
    if occursIn (cs "/v1/v1beta/") u1 then replaceFirst (cs "/v1/v1beta/") (cs "/v1/") u1
    else if occursIn (cs "/v1/v1/") u1 then replaceFirst (cs "/v1/v1/") (cs "/v1/") u1
    else u1
  let u3 :=
    if occursIn (cs "aiplatform.googleapis.com") u2 && !occursIn (cs "publishers/google") u2 then
      if occursIn (cs "/v1/models/") u2 then
        replaceFirst (cs "/v1/models/") (cs "/v1/publishers/google/models/") u2
      else u2
    else u2
  let u4 :=
    if occursIn (cs "/publishers/google/v1beta/models") u3 then
      replaceFirst (cs "/publishers/google/v1beta/models") (cs "/publishers/google/models") u3
    else if occursIn (cs "/publishers/google/v1/models") u3 then
      replaceFirst (cs "/publishers/google/v1/models") (cs "/publishers/google/models") u3
    else u3
  let u5 :=
    if occursIn (cs "/v1beta/v1beta") u4 then
      replaceFirst (cs "/v1beta/v1beta") (cs "/v1beta") u4
    else u4
  collapseSlashes u5

/-! ## URL model

The browser's `URL` and `URLSearchParams` builtins used by
`sanitizeUrlForDisplay` and `configure` are not repository code.  They are
modelled from the WHATWG URL Standard, simplified as follows: only absolute
URLs of the shape `scheme://[userinfo@]host[:port][/path][?query][#fragment]`
parse (opaque-path URLs such as `mailto:` fail); percent-encoding, `+`
decoding, tab/newline stripping and host canonicalization beyond ASCII
lowercasing are not modelled. -/

def isAsciiAlpha (c : Char) : Bool := ('a' ≤ c && c ≤ 'z') || ('A' ≤ c && c ≤ 'Z')

def isAsciiDigit (c : Char) : Bool := '0' ≤ c && c ≤ '9'

def isSchemeChar (c : Char) : Bool :=
  isAsciiAlpha c || isAsciiDigit c || c = '+' || c = '-' || c = '.'

def toLowerChar (c : Char) : Char :=
  if 'A' ≤ c && c ≤ 'Z' then Char.ofNat (c.toNat + 32) else c

def toLowerL (s : List Char) : List Char := s.map toLowerChar

/-- Split the scheme from the rest: consume scheme characters up to a `:`. -/
def schemeSplit (acc : List Char) : List Char → Option (List Char × List Char)
  | ':' :: r => some (acc.reverse, r)
  | c :: r => if isSchemeChar c then schemeSplit (c :: acc) r else none
  | [] => none

/-- Split a list at the first occurrence of `sep` (separator dropped). -/
def splitFirstAt (sep : Char) (l : List Char) : Option (List Char × List Char) :=
  let before := l.takeWhile (· ≠ sep)
  if before.length = l.length then none
  else some (before, l.drop (before.length + 1))

/-- Split a list at the last occurrence of `sep` (separator dropped). -/
def splitLastAt (sep : Char) (l : List Char) : Option (List Char × List Char) :=
  let rev := l.reverse
  let afterRev := rev.takeWhile (· ≠ sep)
  if afterRev.length = rev.length then none
  else some ((rev.drop (afterRev.length + 1)).reverse, afterRev.reverse)

/-- Characters the model forbids in a hostname (subset of the WHATWG forbidden
host code points that can survive the authority split). -/
def hostCharOk (c : Char) : Bool :=
  !(c = ' ' || c = '<' || c = '>' || c = '\\' || c = '^' || c = '|' || c = '%'
    || c = '[' || c = ']')

/-- Parsed URL record mirroring the components of a JavaScript `URL` object
(`scheme` without the trailing colon, `search` without `?`, `hash` without
`#`). -/
structure UrlObj where
  scheme : List Char
  username : List Char
  password : List Char
  hostname : List Char
  port : List Char
  pathname : List Char
  search : List Char
  hash : List Char
deriving DecidableEq, Repr

/-- Modelled from the spec: the WHATWG basic URL parser behind the browser's
`new URL(input)` builtin (not repository code), restricted to
authority-carrying absolute URLs as described in the section comment.
Returns `none` exactly when `new URL` would throw in the modelled fragment. -/
def parseUrl (s : List Char) : Option UrlObj :=
  match s with
  | [] => none
  | c0 :: _ =>
    if isAsciiAlpha c0 then
      match schemeSplit [] s with
      | none => none
      | some (schemeRaw, rest) =>
        match rest with
        | '/' :: '/' :: rest2 =>
          let authority := rest2.takeWhile fun c => c ≠ '/' && c ≠ '?' && c ≠ '#'
          let afterAuth := rest2.drop authority.length
          let uiHp := match splitLastAt '@' authority with
            | some (ui, hp) => (ui, hp)
            | none => ([], authority)
          let userPass := match splitFirstAt ':' uiHp.1 with
            | some (u, p) => (u, p)
            | none => (uiHp.1, [])
          let hostPort := match splitFirstAt ':' uiHp.2 with
            | some (h, p) => (h, p)
            | none => (uiHp.2, [])
          if hostPort.1 = [] then none
          else if !(hostPort.1.all hostCharOk) then none
          else if !(hostPort.2.all isAsciiDigit) then none
          else
            let path := afterAuth.takeWhile fun c => c ≠ '?' && c ≠ '#'
            let afterPath := afterAuth.drop path.length
            let search := match afterPath with
              | '?' :: r => r.takeWhile (· ≠ '#')
              | _ => []
            let hash := match afterPath.dropWhile (· ≠ '#') with
              | '#' :: r => r
              | _ => []
            some {
              scheme := toLowerL schemeRaw
              username := userPass.1
              password := userPass.2
              hostname := toLowerL hostPort.1
              port := hostPort.2
              pathname := if path = [] then ['/'] else path
              search := search
              hash := hash }
        | _ => none
    else none

/-- JavaScript `url.protocol`: the scheme followed by `:`. -/
def UrlObj.protocol (u : UrlObj) : List Char := u.scheme ++ [':']

/-- Serialization of a `UrlObj` back to a string, mirroring `url.toString()`
(`href`) for the modelled URL fragment. -/
def serializeUrl (u : UrlObj) : List Char :=
  u.scheme ++ cs "://"
  ++ (if u.username = [] && u.password = [] then []
      else u.username ++ (if u.password = [] then [] else ':' :: u.password) ++ ['@'])
  ++ u.hostname ++ (if u.port = [] then [] else ':' :: u.port)
  ++ u.pathname
  ++ (if u.search = [] then [] else '?' :: u.search)
  ++ (if u.hash = [] then [] else '#' :: u.hash)

/-! ## URLSearchParams model and the sanitizer -/

/-- Split a query string on `&`. -/
def splitAmp (acc : List Char) : List Char → List (List Char)
  | [] => [acc.reverse]
  | '&' :: r => acc.reverse :: splitAmp [] r
  | c :: r => splitAmp (c :: acc) r

/-- Modelled from the spec: the `application/x-www-form-urlencoded` parser
behind `new URLSearchParams(query)` (not repository code): split on `&`, skip
empty pieces, split each piece at the first `=` (missing `=` gives an empty
value); percent/`+` decoding is not modelled. -/
def parseQuery (q : List Char) : List (List Char × List Char) :=
  ((splitAmp [] q).filter (· ≠ [])).map fun piece =>
    match splitFirstAt '=' piece with
    | some (n, v) => (n, v)
    | none => (piece, [])

/-- Modelled from the spec: `URLSearchParams.toString()` serialization
(without percent-encoding): `name=value` pairs joined by `&`. -/
def serializeQuery : List (List Char × List Char) → List Char
  | [] => []
  | [(n, v)] => n ++ '=' :: v
  | (n, v) :: rest => n ++ '=' :: v ++ '&' :: serializeQuery rest

/-- Deny-list of sensitive query parameter names (`sensitiveParams` in the
source). -/
def sensitiveNames : List (List Char) :=
  [cs "key", cs "apikey", cs "api_key", cs "token", cs "access_token",
   cs "auth", cs "authorization"]

/-- Whether a parameter name matches the deny-list case-insensitively. -/
def isSensitiveName (n : List Char) : Bool := sensitiveNames.contains (toLowerL n)

/-- Recursion core of `sanLoop`; `fuel` only makes the recursion structural
(the index grows by one per step and the loop stops once the index reaches the
length of the current list, which never grows, so fuel equal to the initial
length is enough). -/
def sanLoopFuel : Nat → List (List Char × List Char) → Nat → Bool →
    List (List Char × List Char) × Bool
  | 0, l, _, flag => (l, flag)
  | fuel + 1, l, i, flag =>
    match l.drop i with
    | [] => (l, flag)
    | e :: _ =>
      if isSensitiveName e.1 then
        sanLoopFuel fuel (l.filter fun p => p.1 ≠ e.1) (i + 1) true
      else
        sanLoopFuel fuel l (i + 1) flag

/-- The `for (const [paramName, paramValue] of params.entries())` loop of
`sanitizeUrlForDisplay` (lines 32–38): a live-index iteration over the
parameter list in which `params.delete(paramName)` removes every pair whose
name equals the visited name exactly, shifting later pairs down while the
iteration index still advances — exactly the ECMAScript iterator semantics of
`URLSearchParams` under deletion. -/
def sanLoop (l : List (List Char × List Char)) : List (List Char × List Char) × Bool :=
  sanLoopFuel l.length l 0 false

/-- URL Sanitizer: `sanitizeUrlForDisplay` (lines 16–53 of
`networkInterceptor.ts`) over the URL model above. -/
def sanitizeUrlForDisplay (url : List Char) : List Char :=
  match parseUrl url with
  | none => cs "[malformed URL - unable to sanitize safely]"
  | some u0 =>
    let u1 := if u0.username ≠ [] || u0.password ≠ [] then
        { u0 with username := [], password := [] }
      else u0
    let r := sanLoop (parseQuery u1.search)
    let u2 := { u1 with search := serializeQuery r.1 }
    let u3 := if r.2 then { u2 with hash := cs "sensitive_params_removed" } else u2
    serializeUrl u3

/-! ## Interceptor Configuration Store -/

/-- Module-level state of the interceptor
(`isInterceptorEnabled` / `currentProxyUrl` in the source). -/
structure InterceptorState where
  isInterceptorEnabled : Bool
  currentProxyUrl : Option (List Char)
deriving DecidableEq, Repr

/-- JavaScript truthiness of a `string | null` value: `null` and the empty
string are falsy. -/
def strTruthy : Option (List Char) → Bool
  | none => false
  | some [] => false
  | some (_ :: _) => true

/-- JavaScript `proxyUrl.replace(/\/$/, '')`: remove one trailing slash. -/
def stripTrailingSlash (s : List Char) : List Char :=
  if s.getLast? = some '/' then s.dropLast else s

/-- The `configure(enabled, proxyUrl)` entry point (lines 71–99 of
`networkInterceptor.ts`), returning the state the two module variables hold
after the call. -/
def configure (enabled : Bool) (proxyUrl : Option (List Char)) : InterceptorState :=
  let cur : Option (List Char) :=
    if strTruthy proxyUrl then some (stripTrailingSlash (proxyUrl.getD [])) else none
  if enabled && strTruthy cur then
    match parseUrl (cur.getD []) with
    | some u =>
      if !startsWithL (cs "http") u.protocol then
        { isInterceptorEnabled := false, currentProxyUrl := none }
      else
        { isInterceptorEnabled := enabled, currentProxyUrl := cur }
    | none => { isInterceptorEnabled := false, currentProxyUrl := none }
  else
    { isInterceptorEnabled := enabled, currentProxyUrl := cur }

/-! ## Fetch Interception Shim -/

/-- The three request shapes `patchedFetch` distinguishes (lines 122–129):
a bare string, a `URL` object (identified with its serialization), and a
`Request` object (identified with its `url`). -/
inductive FetchInput where
  | str (s : List Char)
  | urlObj (s : List Char)
  | request (s : List Char)
deriving DecidableEq, Repr

/-- The `urlStr` normalization of `patchedFetch`. -/
def FetchInput.urlStr : FetchInput → List Char
  | .str s => s
  | .urlObj s => s
  | .request s => s

/-- Whether `originalRequest` is set (only for `Request` inputs). -/
def FetchInput.isRequest : FetchInput → Bool
  | .request _ => true
  | _ => false

/-- The dispatch decision `patchedFetch` reaches before calling the real
transport. -/
inductive FetchAction where
  | passOriginal
  | dispatchUrl (newUrl : List Char)
  | dispatchRequest (newUrl : List Char)
deriving DecidableEq, Repr

/-- Dispatch decision of `patchedFetch` (lines 112–187): pass the call through
untouched, or send the rewritten URL (re-wrapped in a `Request` when the input
was one) to the captured original transport. -/
def patchedFetchAction (st : InterceptorState) (input : FetchInput) : FetchAction :=
  if !st.isInterceptorEnabled || !strTruthy st.currentProxyUrl then .passOriginal
  else if occursIn TARGET_HOST input.urlStr then
    let newUrl := rewriteUrl input.urlStr (st.currentProxyUrl.getD [])
    if input.isRequest then .dispatchRequest newUrl else .dispatchUrl newUrl
  else .passOriginal

/-- A JavaScript thrown value: an `Error` instance (with its `TypeError`-ness,
`name` and `message`) or any non-`Error` value (identified with its `String()`
form). -/
inductive Thrown where
  | errVal (isTypeError : Bool) (name message : List Char)
  | nonError (text : List Char)
deriving DecidableEq, Repr

/-- JavaScript `e instanceof Error ? e.message : String(e)`. -/
def Thrown.jsMessage : Thrown → List Char
  | .errVal _ _ m => m
  | .nonError t => t

/-- JavaScript `e instanceof Error && e.name === 'NetworkError'`
(the filter of the outer catch, line 225). -/
def Thrown.isNamedNetworkError : Thrown → Bool
  | .errVal _ n _ => n = cs "NetworkError"
  | .nonError _ => false

/-- The argument shapes with which `patchedFetch` can call the captured
original transport. -/
inductive DispatchCall where
  | original
  | rewrittenUrl (newUrl : List Char)
  | rewrittenRequest (newUrl : List Char)
deriving DecidableEq, Repr

/-- Result of one call to the real transport: a resolved response (abstracted
to a number) or a rejection with a thrown value. -/
inductive TransportResult where
  | ok (respId : Nat)
  | reject (t : Thrown)
deriving DecidableEq, Repr

/-- Observable outcome of one `patchedFetch` call: a response obtained by a
particular transport dispatch, or a raised value. -/
inductive FetchOutcome where
  | resolved (call : DispatchCall) (respId : Nat)
  | raised (t : Thrown)
deriving DecidableEq, Repr

/-- Outcome of forwarding a call to the transport with no catch layer around
it (the line 115 and line 238 call sites): a rejection propagates raw. -/
def dispatchThrough (transport : DispatchCall → TransportResult)
    (call : DispatchCall) : FetchOutcome :=
  match transport call with
  | .ok r => .resolved call r
  | .reject t => .raised t

/-- The `errorDetails` message built by the inner catch (lines 204–217):
the twelve fixed lines joined by newlines, with the original error message and
the two sanitized URLs spliced in. -/
def errorDetailsFor (origMsg sanProxy sanTarget : List Char) : List Char :=
  cs "Network request failed. Original error: " ++ origMsg
  ++ cs "\n\nProxy Configuration:\n  Proxy URL: " ++ sanProxy
  ++ cs "\n  Target URL: " ++ sanTarget
  ++ cs "\n\nTroubleshooting:\n  1. Verify proxy server is running and accessible\n  2. Check proxy URL format is correct (include protocol: http:// or https://)\n  3. Ensure proxy endpoint path matches your configuration\n  4. Check network connectivity and firewall settings\n  5. Verify CORS headers if using browser-based proxy"

/-- Full control flow of one `patchedFetch` call (lines 112–239), including
both catch layers.  `transport` gives the result of each possible call to the
captured original fetch.  `rewriteFault` is an oracle for a throw inside the
outer `try` but before the inner `try` (the URL-heuristic region): the
embedded string operations are total, so the thrown value is supplied as a
parameter to give the catch clauses their ECMAScript semantics.  The enhanced
error built by the inner catch carries the name `NetworkError`, so the outer
catch's name test re-raises it, which the definition encodes directly. -/
def patchedFetchRun (st : InterceptorState) (input : FetchInput)
    (transport : DispatchCall → TransportResult)
    (rewriteFault : Option Thrown) : FetchOutcome :=
  if !st.isInterceptorEnabled || !strTruthy st.currentProxyUrl then
    dispatchThrough transport .original
  else if occursIn TARGET_HOST input.urlStr then
    match rewriteFault with
    | some t =>
      if t.isNamedNetworkError then .raised t
      else dispatchThrough transport .original
    | none =>
      let base := st.currentProxyUrl.getD []
      let newUrl := rewriteUrl input.urlStr base
      let call := if input.isRequest then DispatchCall.rewrittenRequest newUrl
        else DispatchCall.rewrittenUrl newUrl
      match transport call with
      | .ok r => .resolved call r
      | .reject t =>
        .raised (.errVal false (cs "NetworkError")
          (errorDetailsFor t.jsMessage (sanitizeUrlForDisplay base)
            (sanitizeUrlForDisplay newUrl)))
  else dispatchThrough transport .original

/-- Hostname of a URL string under the URL model (used to compare the claim's
"host component" reading with the code's substring test). -/
def hostOf (u : List Char) : Option (List Char) := (parseUrl u).map UrlObj.hostname

/-! ## Mount (install routine) -/

/-- Value of the `window.fetch` slot: the environment's real fetch, or our
patched wrapper capturing the function it closed over as `originalFetch`. -/
inductive FetchFn where
  | real
  | patched (inner : FetchFn)
deriving DecidableEq, Repr

/-- The `__isAllModelChatInterceptor` marker test (line 107). -/
def FetchFn.isMarked : FetchFn → Bool
  | .real => false
  | .patched _ => true

/-- Number of interception layers wrapped around the underlying transport;
each layer applies the rewriting logic of `patchedFetch` once. -/
def FetchFn.layers : FetchFn → Nat
  | .real => 0
  | .patched f => f.layers + 1

/-- The globals `mount` touches: the `window.fetch` slot and the module's
captured `originalFetch`. -/
structure WindowState where
  fetch : FetchFn
  originalFetch : FetchFn
deriving DecidableEq, Repr

/-- The `mount` routine (lines 105–260): a no-op when the installed function
already carries the marker, otherwise capture the current fetch and install
the patched wrapper (the straight assignment on line 245 is assumed to
succeed; the defineProperty fallback is environment-specific). -/
def mount (w : WindowState) : WindowState :=
  if w.fetch.isMarked then w
  else { fetch := .patched w.fetch, originalFetch := w.fetch }

/-! ## Error utilities (`utils/errorUtils.ts`) -/

/-- The `isNetworkError` classifier (lines 14–21 of `errorUtils.ts`). -/
def isNetworkError : Thrown → Bool
  | .errVal isTE n m => n = cs "NetworkError" || (isTE && occursIn (cs "Load failed") m)
  | .nonError _ => false

/-- The `createNetworkError` constructor (lines 30–38 of `errorUtils.ts`);
`none` stands for an omitted/`undefined` original error. -/
def createNetworkError (contextMessage : List Char) (originalError : Option Thrown) : Thrown :=
  let msg := match originalError with
    | some (.errVal _ _ m) => contextMessage ++ cs " Original error: " ++ m
    | _ => contextMessage
  .errVal false (cs "NetworkError") msg

/-- Name of the error raised by a fetch outcome (empty for other outcomes). -/
def FetchOutcome.raisedErrorName : FetchOutcome → List Char
  | .raised (.errVal _ n _) => n
  | _ => []

/-- Message of the value raised by a fetch outcome (empty for other outcomes). -/
def FetchOutcome.raisedMessage : FetchOutcome → List Char
  | .raised t => t.jsMessage
  | _ => []

/-! ## Basic lemmas about the string primitives -/

theorem startsWithL_self_append (p r : List Char) : startsWithL p (p ++ r) = true := by
  induction p with
  | nil => rfl
  | cons a as ih => simp [startsWithL, ih]

theorem occursIn_self_append (pat r : List Char) : occursIn pat (pat ++ r) = true := by
  cases pat with
  | nil =>
    cases r with
    | nil => rfl
    | cons c r' => simp [occursIn, startsWithL]
  | cons a p' =>
    have h := startsWithL_self_append (a :: p') r
    rw [List.cons_append] at h
    simp [occursIn, h]

theorem occursIn_append_left (pat l r : List Char) (h : occursIn pat r = true) :
    occursIn pat (l ++ r) = true := by
  induction l with
  | nil => simpa using h
  | cons c l' ih => simp [occursIn, ih]

theorem replaceFirst_of_not_occurs (pat rep s : List Char) (h : occursIn pat s = false) :
    replaceFirst pat rep s = s := by
  induction s with
  | nil =>
    simp only [occursIn] at h
    simp [replaceFirst, h]
  | cons c rest ih =>
    simp only [occursIn, Bool.or_eq_false_iff] at h
    simp [replaceFirst, h.1, ih h.2]

/-! ## Claim C5: idempotence of the rewrite chain -/

/-- Decidable test that none of the rewrite chain's rule preconditions holds
on a string: no trigger substring occurs and the slash-collapse rule leaves it
unchanged. -/
def rewriteTriggersNone (v : List Char) : Bool :=
  !occursIn targetOrigin v
  && !occursIn (cs "/v1/v1beta/") v
  && !occursIn (cs "/v1/v1/") v
  && !(occursIn (cs "aiplatform.googleapis.com") v && !occursIn (cs "publishers/google") v
        && occursIn (cs "/v1/models/") v)
  && !occursIn (cs "/publishers/google/v1beta/models") v
  && !occursIn (cs "/publishers/google/v1/models") v
  && !occursIn (cs "/v1beta/v1beta") v
  && (collapseSlashes v = v)

/-- Rewrite chain is the identity on strings triggering none of its rules. -/
theorem rewriteUrl_fixpoint (v b : List Char) (h : rewriteTriggersNone v = true) :
    rewriteUrl v b = v := by
  simp only [rewriteTriggersNone, Bool.and_eq_true, Bool.not_eq_true',
    decide_eq_true_eq] at h
  obtain ⟨⟨⟨⟨⟨⟨⟨h1, h2⟩, h3⟩, h4⟩, h5⟩, h6⟩, h7⟩, h8⟩ := h
  have hstep1 : replaceFirst targetOrigin b v = v := replaceFirst_of_not_occurs _ _ _ h1
  cases hC : occursIn (cs "/v1/models/") v with
  | false => simp [rewriteUrl, hstep1, h2, h3, hC, h5, h6, h7, h8]
  | true =>
    have hAB : (occursIn (cs "aiplatform.googleapis.com") v
        && !occursIn (cs "publishers/google") v) = false := by
      rw [hC] at h4
      simpa using h4
    simp [rewriteUrl, hstep1, h2, h3, hAB, h5, h6, h7, h8]

/-- Claim C5 as stated is false: re-applying the full rule chain to the output
of a first application can change the string again.  At the concrete input
`https://generativelanguage.googleapis.com/v1/v1/v1beta/m` with proxy base
`https://p.ex`, the first pass collapses `/v1/v1beta/` and leaves
`https://p.ex/v1/v1/m`, and the second pass then collapses the freshly exposed
`/v1/v1/`. -/
theorem C5_counterexample :
    rewriteUrl
        (rewriteUrl (cs "https://generativelanguage.googleapis.com/v1/v1/v1beta/m")
          (cs "https://p.ex"))
        (cs "https://p.ex")
      ≠ rewriteUrl (cs "https://generativelanguage.googleapis.com/v1/v1/v1beta/m")
          (cs "https://p.ex") := by decide

/-- Amended claim C5: re-applying the full ordered rule chain to the output of
a first application yields the same string whenever that output no longer
satisfies any rule's precondition; the chain is not idempotent in general. -/
theorem C5_amended (u b : List Char) (h : rewriteTriggersNone (rewriteUrl u b) = true) :
    rewriteUrl (rewriteUrl u b) b = rewriteUrl u b :=
  rewriteUrl_fixpoint (rewriteUrl u b) b h

theorem C5_amended_witness :
    rewriteTriggersNone
        (rewriteUrl (cs "https://generativelanguage.googleapis.com/v1beta/models/foo:generateContent")
          (cs "https://my-proxy.example/v1")) = true
    ∧ rewriteUrl
        (rewriteUrl (cs "https://generativelanguage.googleapis.com/v1beta/models/foo:generateContent")
          (cs "https://my-proxy.example/v1"))
        (cs "https://my-proxy.example/v1")
      = rewriteUrl (cs "https://generativelanguage.googleapis.com/v1beta/models/foo:generateContent")
          (cs "https://my-proxy.example/v1") :=
  ⟨by decide,
   C5_amended (cs "https://generativelanguage.googleapis.com/v1beta/models/foo:generateContent")
     (cs "https://my-proxy.example/v1") (by decide)⟩

/-! ## Claims C3 and C8: the sanitizer -/

theorem occursIn_self (p : List Char) : occursIn p p = true := by
  simpa using occursIn_self_append p []

/-- Behaviour of one run of the sanitizing loop: provided every
already-visited position holds a non-sensitive name and all sensitive names in
the list share one exact spelling, the loop removes every sensitive entry, and
its flag records whether a sensitive entry occurred at or after the index. -/
theorem sanLoopFuel_spec (fuel : Nat) :
    ∀ (l : List (List Char × List Char)) (i : Nat) (flag : Bool),
      l.length ≤ fuel + i →
      (∀ e ∈ l.take i, isSensitiveName e.1 = false) →
      (∀ e1 ∈ l, ∀ e2 ∈ l, isSensitiveName e1.1 = true → isSensitiveName e2.1 = true →
        e1.1 = e2.1) →
      (∀ e ∈ (sanLoopFuel fuel l i flag).1, isSensitiveName e.1 = false)
      ∧ (sanLoopFuel fuel l i flag).2
          = (flag || (l.drop i).any fun e => isSensitiveName e.1) := by
  induction fuel with
  | zero =>
    intro l i flag hlen hpre _
    have hdrop : l.drop i = [] := List.drop_eq_nil_of_le (by omega)
    have htake : l.take i = l := List.take_of_length_le (by omega)
    refine ⟨fun e he => ?_, ?_⟩
    · have he' : e ∈ l := by simpa [sanLoopFuel] using he
      exact hpre e (by rw [htake]; exact he')
    · simp [sanLoopFuel, hdrop]
  | succ fuel ih =>
    intro l i flag hlen hpre huni
    cases hdrop : l.drop i with
    | nil =>
      have hlen' : l.length ≤ i := by
        have := List.drop_eq_nil_iff.mp hdrop
        omega
      have htake : l.take i = l := List.take_of_length_le hlen'
      refine ⟨fun e he => ?_, ?_⟩
      · have hres : (sanLoopFuel (fuel + 1) l i flag).1 = l := by
          simp [sanLoopFuel, hdrop]
        rw [hres] at he
        exact hpre e (by rw [htake]; exact he)
      · simp [sanLoopFuel, hdrop]
    | cons e tail =>
      have he_mem : e ∈ l := by
        have hmem : e ∈ l.drop i := by
          rw [hdrop]; exact List.mem_cons_self _ _
        exact List.drop_subset i l hmem
      have hstep : sanLoopFuel (fuel + 1) l i flag
          = (if isSensitiveName e.1 then
              sanLoopFuel fuel (l.filter fun p => p.1 ≠ e.1) (i + 1) true
            else sanLoopFuel fuel l (i + 1) flag) := by
        simp [sanLoopFuel, hdrop]
      have hdropsucc : l.drop (i + 1) = tail := by
        rw [← List.drop_drop, hdrop]
        simp
      cases hsens : isSensitiveName e.1 with
      | true =>
        have hall : ∀ e' ∈ l.filter (fun p => p.1 ≠ e.1), isSensitiveName e'.1 = false := by
          intro e' he'
          have hmem : e' ∈ l := List.mem_of_mem_filter he'
          have hne : e'.1 ≠ e.1 := by simpa using List.of_mem_filter he'
          cases hse : isSensitiveName e'.1 with
          | false => rfl
          | true => exact absurd (huni e' hmem e he_mem hse hsens) hne
        have hlt : (l.filter (fun p => p.1 ≠ e.1)).length < l.length := by
          apply List.length_filter_lt_length_iff_exists.mpr
          exact ⟨e, he_mem, by simp⟩
        have hrec := ih (l.filter fun p => p.1 ≠ e.1) (i + 1) true
          (by omega)
          (fun e' he' => hall e' (List.take_subset _ _ he'))
          (fun e1 h1 e2 h2 hs1 _ => absurd hs1 (by simp [hall e1 h1]))
        rw [hstep, if_pos (by rw [hsens])]
        refine ⟨hrec.1, ?_⟩
        rw [hrec.2]
        simp [hsens]
      | false =>
        have hgete : l[i]? = some e := by
          have h0 : (l.drop i)[0]? = some e := by rw [hdrop]; simp
          rwa [List.getElem?_drop, Nat.add_zero] at h0
        have hpre' : ∀ e' ∈ l.take (i + 1), isSensitiveName e'.1 = false := by
          intro e' he'
          rw [List.take_succ, hgete] at he'
          rcases List.mem_append.mp he' with h | h
          · exact hpre e' h
          · have : e' = e := by simpa using h
            rw [this]
            exact hsens
        have hrec := ih l (i + 1) flag (by omega) hpre' huni
        rw [hstep, if_neg (by rw [hsens]; exact Bool.false_ne_true)]
        refine ⟨hrec.1, ?_⟩
        rw [hrec.2, hdropsucc]
        simp [hsens]

/-! ## Claim C2: when the rewrite applies -/

/-- Helper: a non-empty stored proxy string is truthy. -/
theorem strTruthy_of_ne_nil (b : List Char) (hb : b ≠ []) : strTruthy (some b) = true := by
  cases b with
  | nil => exact absurd rfl hb
  | cons c cb => rfl

/-- Claim C2 as stated is false: the shim decides by substring containment of
the target host in the whole URL string, not by equality of the URL's host
component.  The URL
`https://generativelanguage.googleapis.com.evil.example/a` has host
`generativelanguage.googleapis.com.evil.example`, yet the rewrite is applied
to it. -/
theorem C2_counterexample :
    hostOf (cs "https://generativelanguage.googleapis.com.evil.example/a") ≠ some TARGET_HOST
    ∧ patchedFetchAction
        { isInterceptorEnabled := true, currentProxyUrl := some (cs "https://p.ex") }
        (.str (cs "https://generativelanguage.googleapis.com.evil.example/a"))
      = .dispatchUrl (cs "https://p.ex.evil.example/a") := by decide

/-- Amended claim C2: with the interceptor enabled and a non-empty proxy
configured, the rewrite is applied if and only if the URL string contains the
substring `generativelanguage.googleapis.com` anywhere; otherwise the call is
passed through with the original input and options. -/
theorem C2_amended (st : InterceptorState) (input : FetchInput) (b : List Char)
    (he : st.isInterceptorEnabled = true) (hp : st.currentProxyUrl = some b) (hb : b ≠ []) :
    (occursIn TARGET_HOST input.urlStr = false →
      patchedFetchAction st input = .passOriginal)
    ∧ (occursIn TARGET_HOST input.urlStr = true →
      patchedFetchAction st input
        = (if input.isRequest then FetchAction.dispatchRequest (rewriteUrl input.urlStr b)
           else FetchAction.dispatchUrl (rewriteUrl input.urlStr b))) := by
  constructor
  · intro hno
    simp [patchedFetchAction, he, hp, strTruthy_of_ne_nil b hb, hno]
  · intro hyes
    simp [patchedFetchAction, he, hp, strTruthy_of_ne_nil b hb, hyes]

theorem C2_amended_witness :
    patchedFetchAction { isInterceptorEnabled := true, currentProxyUrl := some (cs "https://p.ex") }
        (.str (cs "https://other.example/x")) = .passOriginal
    ∧ patchedFetchAction { isInterceptorEnabled := true, currentProxyUrl := some (cs "https://p.ex") }
        (.request (cs "https://generativelanguage.googleapis.com/v1beta/models/m"))
      = .dispatchRequest
          (rewriteUrl (cs "https://generativelanguage.googleapis.com/v1beta/models/m")
            (cs "https://p.ex")) := by
  constructor
  · exact (C2_amended _ (.str (cs "https://other.example/x")) (cs "https://p.ex")
      rfl rfl (by decide)).1 (by decide)
  · have h := (C2_amended { isInterceptorEnabled := true, currentProxyUrl := some (cs "https://p.ex") }
      (.request (cs "https://generativelanguage.googleapis.com/v1beta/models/m"))
      (cs "https://p.ex") rfl rfl (by decide)).2 (by decide)
    simpa [FetchInput.isRequest] using h

/-! ## Claim C7: rewrite-failure recovery -/

/-- Claim C7 as stated is false: the rewrite-failure catch layer distinguishes
transport errors from rewrite errors by the `name` on the thrown value only.
A rewrite-step error that happens to be an `Error` named `NetworkError` is not
the error raised by the transport-failure path (the transport here always
resolves), yet it is re-raised to the caller instead of being recovered by the
fallback dispatch. -/
theorem C7_counterexample :
    patchedFetchRun { isInterceptorEnabled := true, currentProxyUrl := some (cs "https://p.ex") }
      (.str (cs "https://generativelanguage.googleapis.com/v1beta/models/m"))
      (fun _ => .ok 0)
      (some (.errVal false (cs "NetworkError") (cs "rewrite step failed")))
    = .raised (.errVal false (cs "NetworkError") (cs "rewrite step failed")) := by decide

/-- Amended claim C7: if computing the rewritten URL throws a value that is
not an `Error` instance named `NetworkError`, the shim recovers locally by
dispatching the original, un-rewritten input with the caller's original
options, and the outcome is exactly that of the fallback dispatch (the rewrite
error is not raised to the application). -/
theorem C7_amended (st : InterceptorState) (input : FetchInput) (b : List Char)
    (transport : DispatchCall → TransportResult) (t : Thrown)
    (he : st.isInterceptorEnabled = true) (hp : st.currentProxyUrl = some b) (hb : b ≠ [])
    (hocc : occursIn TARGET_HOST input.urlStr = true)
    (ht : t.isNamedNetworkError = false) :
    patchedFetchRun st input transport (some t) = dispatchThrough transport .original := by
  have htru : strTruthy st.currentProxyUrl = true := by
    rw [hp]; exact strTruthy_of_ne_nil b hb
  simp [patchedFetchRun, he, htru, hocc, ht]

theorem C7_amended_witness :
    patchedFetchRun { isInterceptorEnabled := true, currentProxyUrl := some (cs "https://p.ex") }
      (.str (cs "https://generativelanguage.googleapis.com/v1beta/models/m"))
      (fun _ => .ok 7) (some (.nonError (cs "boom")))
    = .resolved .original 7 := by
  have h := C7_amended { isInterceptorEnabled := true, currentProxyUrl := some (cs "https://p.ex") }
    (.str (cs "https://generativelanguage.googleapis.com/v1beta/models/m")) (cs "https://p.ex")
    (fun _ => .ok 7) (.nonError (cs "boom")) rfl rfl (by decide) (by decide) rfl
  simpa [dispatchThrough] using h

/-! ## Claim C1: the configuration invariant -/

/-- Decidable test that a stored proxy string parses as a URL whose protocol
starts with `http` (the check `configure` performs). -/
def validProxyString (s : List Char) : Bool :=
  match parseUrl s with
  | some u => startsWithL (cs "http") u.protocol
  | none => false

/-- Claim C1 as stated is false on two concrete inputs.  `configure(true, null)`
leaves the state `{enabled: true, proxyUrl: null}` (validation is skipped
because the normalized proxy is falsy, but the enabled flag was already
stored), so a state with enabled=true and a null proxy URL is observable and
the promised reset to `{enabled: false, proxyUrl: null}` does not happen; and
`configure(true, "/")` leaves `{enabled: true, proxyUrl: ""}`, whose stored
proxy string is not a parseable absolute URL. -/
theorem C1_counterexample :
    configure true none = { isInterceptorEnabled := true, currentProxyUrl := none }
    ∧ configure true (some (cs "/"))
      = { isInterceptorEnabled := true, currentProxyUrl := some [] } := by decide

/-- Amended claim C1: validation runs only when `enabled` is true and the
normalized proxy string is non-null and non-empty; in that case any
validation failure (unparseable URL or protocol not starting with `http`)
yields exactly `{enabled: false, proxyUrl: null}`, and consequently whenever
the resulting state has enabled=true together with a non-null, non-empty
proxy string, that string is a parseable absolute URL with an http-family
protocol.  For a null or effectively empty proxy input the enabled flag is
stored as passed, so `{enabled: true, proxyUrl: null}` and
`{enabled: true, proxyUrl: ""}` are observable (request handling treats both
as disabled). -/
theorem C1_amended (e : Bool) (p : Option (List Char)) :
    ((configure e p).isInterceptorEnabled = true →
      ∀ s, (configure e p).currentProxyUrl = some s → s ≠ [] →
        validProxyString s = true)
    ∧ (∀ s, e = true → p = some s → stripTrailingSlash s ≠ [] →
        validProxyString (stripTrailingSlash s) = false →
        configure e p = { isInterceptorEnabled := false, currentProxyUrl := none }) := by
  constructor
  · intro h1 s h2 h3
    cases e with
    | false =>
      simp [configure] at h1
    | true =>
      rcases p with _ | ps
      · simp [configure, strTruthy] at h2
      · cases ps with
        | nil => simp [configure, strTruthy] at h2
        | cons c cr =>
          cases hs : stripTrailingSlash (c :: cr) with
          | nil =>
            rw [show configure true (some (c :: cr))
                = { isInterceptorEnabled := true, currentProxyUrl := some [] } from by
              simp [configure, strTruthy, hs]] at h2
            simp at h2
            exact absurd h2 h3
          | cons d dr =>
            cases hu : parseUrl (d :: dr) with
            | none =>
              rw [show configure true (some (c :: cr))
                  = { isInterceptorEnabled := false, currentProxyUrl := none } from by
                simp [configure, strTruthy, hs, hu]] at h2
              simp at h2
            | some u =>
              cases hw : startsWithL (cs "http") u.protocol with
              | false =>
                rw [show configure true (some (c :: cr))
                    = { isInterceptorEnabled := false, currentProxyUrl := none } from by
                  simp [configure, strTruthy, hs, hu, hw]] at h1
                simp at h1
              | true =>
                rw [show configure true (some (c :: cr))
                    = { isInterceptorEnabled := true, currentProxyUrl := some (d :: dr) } from by
                  simp [configure, strTruthy, hs, hu, hw]] at h2
                simp at h2
                subst h2
                simp [validProxyString, hu, hw]
  · intro s he hp hs hv
    subst he
    subst hp
    cases s with
    | nil => exact absurd rfl hs
    | cons c cr =>
      cases hss : stripTrailingSlash (c :: cr) with
      | nil => exact absurd hss hs
      | cons d dr =>
        rw [hss] at hv
        cases hu : parseUrl (d :: dr) with
        | none => simp [configure, strTruthy, hss, hu]
        | some u =>
          simp only [validProxyString, hu] at hv
          simp [configure, strTruthy, hss, hu, hv]

theorem C1_amended_witness :
    validProxyString (cs "https://prox.example") = true
    ∧ configure true (some (cs "ftp://host"))
      = { isInterceptorEnabled := false, currentProxyUrl := none } := by
  constructor
  · exact (C1_amended true (some (cs "https://prox.example/"))).1 (by decide)
      (cs "https://prox.example") (by decide) (by decide)
  · exact (C1_amended true (some (cs "ftp://host"))).2 (cs "ftp://host") rfl rfl
      (by decide) (by decide)

/-! ## Claim C9: idempotent install -/

/-- Claim C9: mounting is idempotent — after the installed function carries
the marker the second call is a no-op — and starting from an unmarked fetch
slot a double mount leaves exactly one interception layer wrapping the
previous transport, which is also captured as `originalFetch`. -/
theorem C9_mount_once (w : WindowState) :
    mount (mount w) = mount w
    ∧ (w.fetch.isMarked = false →
        (mount (mount w)).fetch = FetchFn.patched w.fetch
        ∧ FetchFn.layers w.fetch = 0
        ∧ FetchFn.layers (mount (mount w)).fetch = 1
        ∧ (mount (mount w)).originalFetch = w.fetch) := by
  obtain ⟨f, o⟩ := w
  cases f with
  | real => exact ⟨rfl, fun _ => ⟨rfl, rfl, rfl, rfl⟩⟩
  | patched inner =>
    refine ⟨rfl, fun h => ?_⟩
    simp [FetchFn.isMarked] at h

theorem C9_mount_once_witness :
    mount (mount { fetch := FetchFn.real, originalFetch := FetchFn.real })
      = mount { fetch := FetchFn.real, originalFetch := FetchFn.real }
    ∧ FetchFn.layers (mount (mount { fetch := FetchFn.real, originalFetch := FetchFn.real })).fetch
      = 1 :=
  ⟨(C9_mount_once { fetch := FetchFn.real, originalFetch := FetchFn.real }).1,
   ((C9_mount_once { fetch := FetchFn.real, originalFetch := FetchFn.real }).2 rfl).2.2.1⟩

/-! ## Claim C10: error constructor / classifier round-trip -/

/-- Claim C10: `createNetworkError` always returns an `Error` named exactly
`NetworkError`, `isNetworkError` accepts every such result, and
`isNetworkError` rejects every value that is not an `Error` instance. -/
theorem C10_network_error_roundtrip :
    (∀ (ctx : List Char) (orig : Option Thrown),
      isNetworkError (createNetworkError ctx orig) = true
      ∧ ∃ msg, createNetworkError ctx orig = Thrown.errVal false (cs "NetworkError") msg)
    ∧ (∀ s : List Char, isNetworkError (Thrown.nonError s) = false) := by
  constructor
  · intro ctx orig
    constructor
    · rcases orig with _ | t
      · simp [createNetworkError, isNetworkError]
      · cases t <;> simp [createNetworkError, isNetworkError]
    · rcases orig with _ | t
      · exact ⟨ctx, rfl⟩
      · cases t with
        | errVal te n m => exact ⟨ctx ++ cs " Original error: " ++ m, rfl⟩
        | nonError x => exact ⟨ctx, rfl⟩
  · intro s
    rfl

/-! ## Claim C6: the standard-proxy scenario -/

/-- Claim C6: for the original URL
`https://generativelanguage.googleapis.com/v1beta/models/foo:generateContent`
and proxy base `https://my-proxy.example/v1`, the rewrite engine produces
exactly `https://my-proxy.example/v1/models/foo:generateContent`, with no
duplicated `v1beta` segment. -/
theorem C6_scenario_rewrite :
    rewriteUrl (cs "https://generativelanguage.googleapis.com/v1beta/models/foo:generateContent")
        (cs "https://my-proxy.example/v1")
      = cs "https://my-proxy.example/v1/models/foo:generateContent" := by decide

set_option maxRecDepth 16384 in
/-- Claim C3 as stated is false: with the query `?KEY=alpha1&key=beta22`, both
parameter names match the deny-list case-insensitively, but deleting the first
during live iteration shifts the second one under the advancing iterator
index, so the denied parameter `key=beta22` — value included — survives in
the sanitized output (the marker fragment is still appended). -/
theorem C3_counterexample :
    sanitizeUrlForDisplay (cs "https://example.com/?KEY=alpha1&key=beta22")
      = cs "https://example.com/?key=beta22#sensitive_params_removed"
    ∧ occursIn (cs "beta22")
        (sanitizeUrlForDisplay (cs "https://example.com/?KEY=alpha1&key=beta22")) = true := by
  decide

/-- Amended claim C3: for every URL that parses, the sanitized output is the
serialization with userinfo cleared — credentials never survive — with the
query replaced by the loop's surviving parameters, and with the fixed marker
fragment as output fragment exactly when the loop removed something; the
removal flag is set exactly when some denied-named parameter was present.
Whenever all denied-named parameters in the query share one exact spelling no
denied parameter survives; with differently-spelled denied names a later one
can escape (see the counterexample). -/
theorem C3_amended (url : List Char) (u : UrlObj) (hu : parseUrl url = some u)
    (huni : ∀ e1 ∈ parseQuery u.search, ∀ e2 ∈ parseQuery u.search,
      isSensitiveName e1.1 = true → isSensitiveName e2.1 = true → e1.1 = e2.1) :
    (∀ e ∈ (sanLoop (parseQuery u.search)).1, isSensitiveName e.1 = false)
    ∧ (sanLoop (parseQuery u.search)).2
        = (parseQuery u.search).any (fun e => isSensitiveName e.1)
    ∧ sanitizeUrlForDisplay url
        = serializeUrl { u with
            username := []
            password := []
            search := serializeQuery (sanLoop (parseQuery u.search)).1
            hash := (if (sanLoop (parseQuery u.search)).2 = true then
              cs "sensitive_params_removed" else u.hash) }
    ∧ ((sanLoop (parseQuery u.search)).2 = true →
        occursIn (cs "#sensitive_params_removed") (sanitizeUrlForDisplay url) = true) := by
  obtain ⟨sc, un, pw, hn, pt, pa, se, ha⟩ := u
  have hspec := sanLoopFuel_spec (parseQuery se).length (parseQuery se) 0 false
    (by omega) (by simp) huni
  have h1 : ∀ e ∈ (sanLoop (parseQuery se)).1, isSensitiveName e.1 = false := hspec.1
  have h2 : (sanLoop (parseQuery se)).2
      = (parseQuery se).any (fun e => isSensitiveName e.1) := by
    simpa using hspec.2
  have hmain : sanitizeUrlForDisplay url
      = serializeUrl {
          scheme := sc
          username := []
          password := []
          hostname := hn
          port := pt
          pathname := pa
          search := serializeQuery (sanLoop (parseQuery se)).1
          hash := (if (sanLoop (parseQuery se)).2 = true then
            cs "sensitive_params_removed" else ha) } := by
    cases hflag : (sanLoop (parseQuery se)).2 with
    | true =>
      rw [sanLoop] at hflag
      by_cases hU : un = [] <;> by_cases hP : pw = [] <;>
        simp [sanitizeUrlForDisplay, hu, hU, hP, hflag, sanLoop]
    | false =>
      rw [sanLoop] at hflag
      by_cases hU : un = [] <;> by_cases hP : pw = [] <;>
        simp [sanitizeUrlForDisplay, hu, hU, hP, hflag, sanLoop]
  have hmark : (sanLoop (parseQuery se)).2 = true →
      occursIn (cs "#sensitive_params_removed") (sanitizeUrlForDisplay url) = true := by
    intro hflag
    rw [hmain]
    simp only [hflag, if_true]
    rw [serializeUrl]
    have hne : (cs "sensitive_params_removed" : List Char) ≠ [] := by decide
    rw [if_neg hne]
    have hpat : '#' :: cs "sensitive_params_removed" = cs "#sensitive_params_removed" := by
      decide
    rw [hpat]
    simp only [List.append_assoc]
    repeat apply occursIn_append_left
    exact occursIn_self _
  exact ⟨h1, h2, hmain, hmark⟩

theorem C3_amended_witness :
    (∀ e ∈ (sanLoop (parseQuery (cs "key=SECRET&x=1"))).1, isSensitiveName e.1 = false)
    ∧ occursIn (cs "#sensitive_params_removed")
        (sanitizeUrlForDisplay (cs "https://user:pw@example.com/p?key=SECRET&x=1")) = true := by
  have h := C3_amended (cs "https://user:pw@example.com/p?key=SECRET&x=1")
    { scheme := cs "https"
      username := cs "user"
      password := cs "pw"
      hostname := cs "example.com"
      port := []
      pathname := cs "/p"
      search := cs "key=SECRET&x=1"
      hash := [] }
    (by decide) (by decide)
  exact ⟨h.1, h.2.2.2 (by decide)⟩

/-- Claim C8: the sanitizer is total by construction in this embedding, and on
every input string the URL parser rejects it returns the fixed placeholder
string — a constant, not derived from the input. -/
theorem C8_sanitize_fails_closed (s : List Char) (h : parseUrl s = none) :
    sanitizeUrlForDisplay s = cs "[malformed URL - unable to sanitize safely]" := by
  simp [sanitizeUrlForDisplay, h]

theorem C8_sanitize_fails_closed_witness :
    parseUrl (cs "not a url") = none
    ∧ sanitizeUrlForDisplay (cs "not a url")
      = cs "[malformed URL - unable to sanitize safely]" :=
  ⟨by decide, C8_sanitize_fails_closed (cs "not a url") (by decide)⟩

/-! ## Claim C4: transport-failure classification -/

/-- Concrete request URL carrying an API key, used by the C4 scenario. -/
def c4url : List Char :=
  cs "https://generativelanguage.googleapis.com/v1beta/models/m?key=SECRETKEY123"

set_option maxRecDepth 16384 in
/-- Claim C4 as stated is false on inputs where the transport error's own
message echoes a sensitive value: the inner catch embeds the original error
message verbatim, so the raised NetworkError's message then contains the API
key that was present in the unsanitized URL, even though both URL fields were
sanitized. -/
theorem C4_counterexample :
    occursIn (cs "SECRETKEY123") c4url = true
    ∧ FetchOutcome.raisedErrorName
        (patchedFetchRun { isInterceptorEnabled := true, currentProxyUrl := some (cs "https://p.ex") }
          (.str c4url)
          (fun _ => .reject (.errVal false (cs "Error") (cs "refused fetching ?key=SECRETKEY123")))
          none)
      = cs "NetworkError"
    ∧ occursIn (cs "SECRETKEY123")
        (FetchOutcome.raisedMessage
          (patchedFetchRun { isInterceptorEnabled := true, currentProxyUrl := some (cs "https://p.ex") }
            (.str c4url)
            (fun _ => .reject (.errVal false (cs "Error") (cs "refused fetching ?key=SECRETKEY123")))
            none))
      = true := by decide

/-- Amended claim C4: when the transport call for the rewritten dispatch
rejects, the shim raises an Error named exactly `NetworkError` whose message
contains the original transport error's message, the sanitized proxy URL and
the sanitized rewritten target URL, and this error propagates unchanged
through the rewrite-failure catch layer; the sanitizers scrub only the two URL
fields, so no secret reaches the message through them, but a sensitive value
does reach it whenever the transport error's own message contains one (see the
counterexample). -/
theorem C4_amended (st : InterceptorState) (input : FetchInput) (b : List Char)
    (transport : DispatchCall → TransportResult) (t : Thrown)
    (he : st.isInterceptorEnabled = true) (hp : st.currentProxyUrl = some b) (hb : b ≠ [])
    (hocc : occursIn TARGET_HOST input.urlStr = true)
    (hrej : transport (if input.isRequest then DispatchCall.rewrittenRequest (rewriteUrl input.urlStr b)
        else DispatchCall.rewrittenUrl (rewriteUrl input.urlStr b)) = .reject t) :
    patchedFetchRun st input transport none
      = .raised (.errVal false (cs "NetworkError")
          (errorDetailsFor t.jsMessage (sanitizeUrlForDisplay b)
            (sanitizeUrlForDisplay (rewriteUrl input.urlStr b))))
    ∧ occursIn t.jsMessage
        (errorDetailsFor t.jsMessage (sanitizeUrlForDisplay b)
          (sanitizeUrlForDisplay (rewriteUrl input.urlStr b))) = true
    ∧ occursIn (sanitizeUrlForDisplay b)
        (errorDetailsFor t.jsMessage (sanitizeUrlForDisplay b)
          (sanitizeUrlForDisplay (rewriteUrl input.urlStr b))) = true
    ∧ occursIn (sanitizeUrlForDisplay (rewriteUrl input.urlStr b))
        (errorDetailsFor t.jsMessage (sanitizeUrlForDisplay b)
          (sanitizeUrlForDisplay (rewriteUrl input.urlStr b))) = true := by
  refine ⟨?_, ?_, ?_, ?_⟩
  · simp [patchedFetchRun, he, hp, strTruthy_of_ne_nil b hb, hocc, hrej]
  · rw [errorDetailsFor]
    simp only [List.append_assoc]
    apply occursIn_append_left
    exact occursIn_self_append _ _
  · rw [errorDetailsFor]
    simp only [List.append_assoc]
    apply occursIn_append_left
    apply occursIn_append_left
    apply occursIn_append_left
    exact occursIn_self_append _ _
  · rw [errorDetailsFor]
    simp only [List.append_assoc]
    apply occursIn_append_left
    apply occursIn_append_left
    apply occursIn_append_left
    apply occursIn_append_left
    apply occursIn_append_left
    exact occursIn_self_append _ _

set_option maxRecDepth 16384 in
theorem C4_amended_witness :
    patchedFetchRun { isInterceptorEnabled := true, currentProxyUrl := some (cs "https://p.ex") }
      (.str c4url)
      (fun _ => TransportResult.reject (.errVal true (cs "TypeError") (cs "connection refused")))
      none
    = .raised (.errVal false (cs "NetworkError")
        (errorDetailsFor (cs "connection refused") (sanitizeUrlForDisplay (cs "https://p.ex"))
          (sanitizeUrlForDisplay (rewriteUrl c4url (cs "https://p.ex")))))
    ∧ occursIn (cs "connection refused")
        (errorDetailsFor (cs "connection refused") (sanitizeUrlForDisplay (cs "https://p.ex"))
          (sanitizeUrlForDisplay (rewriteUrl c4url (cs "https://p.ex")))) = true
    ∧ occursIn (cs "SECRETKEY123")
        (errorDetailsFor (cs "connection refused") (sanitizeUrlForDisplay (cs "https://p.ex"))
          (sanitizeUrlForDisplay (rewriteUrl c4url (cs "https://p.ex")))) = false := by
  have h := C4_amended { isInterceptorEnabled := true, currentProxyUrl := some (cs "https://p.ex") }
    (.str c4url) (cs "https://p.ex")
    (fun _ => TransportResult.reject (.errVal true (cs "TypeError") (cs "connection refused")))
    (.errVal true (cs "TypeError") (cs "connection refused"))
    rfl rfl (by decide) (by decide) rfl
  exact ⟨h.1, h.2.1, by decide⟩
